import Mathlib

/-!
Verification of the Book-Alchemy library application.

The development shallowly embeds the two source files of the repository:

* data_models.py: the two tables Author and Book, held in a LibraryState.
* app.py: the request handlers home (GET listing and POST deletion),
  add_author, add_book, library_home and delete_book.

Strings are compared the way the SQLite backend compares them: ORDER BY on a
text column uses the BINARY collation (codepoint order, modelled by strLtB on
char lists) and LIKE / ilike is case-insensitive on ASCII letters (modelled by
lowering both sides with Char.toLower) with full wildcard semantics: the
handlers interpolate the user search string unescaped between two percent
signs, so percent and underscore inside it act as LIKE wildcards (likeMatch).
A db.session.commit call makes the current table state durable; the commits
field of DeleteResult records every committed state in order, so that
intermediate commit points are visible.
-/

namespace BookAlchemy

/-- Row of the authors table (data_models.py, class Author, lines 6-20). -/
structure Author where
  id : Nat
  name : String
  birth_date : String
  date_of_death : Option String
deriving DecidableEq

/-- Row of the books table (data_models.py, class Book, lines 23-36).
The isbn column carries a UNIQUE constraint and author_id a foreign key to
authors.id. -/
structure Book where
  id : Nat
  isbn : String
  title : String
  publication_year : Int
  author_id : Nat
deriving DecidableEq

/-- The relational store: the two tables of data_models.py. -/
structure LibraryState where
  authors : List Author
  books : List Book
deriving DecidableEq

/-- A form field as Flask request.form.get returns it: none when the key is
absent. Python truthiness treats both a missing field and the empty string as
falsy, which is the test the handlers use. -/
def fieldBlank : Option String → Bool
  | none => true
  | some s => s == ""

/-- Prefix test over char lists, helper for substring containment. -/
def startsWithB : List Char → List Char → Bool
  | [], _ => true
  | _ :: _, [] => false
  | a :: p, b :: s => a == b && startsWithB p s

/-- Substring containment over char lists: the pattern occurs somewhere in s.
Models an SQL LIKE pattern with a percent wildcard on both sides. -/
def containsSubB (pat : List Char) : List Char → Bool
  | [] => startsWithB pat []
  | b :: t => startsWithB pat (b :: t) || containsSubB pat t

/-- The char list of a string, lowercased: SQLite applies LIKE and ilike
case-insensitively on ASCII letters, modelled by lowering both sides. -/
def lowerL (s : String) : List Char := s.data.map Char.toLower

/-- Case-insensitive substring containment between two raw strings: the
predicate the specification describes for search matching (no wildcard
interpretation; the pattern is taken literally). -/
def ilikeSub (pat s : String) : Bool := containsSubB (lowerL pat) (lowerL s)

/-- Does f accept some suffix of the list? Every suffix is tried, the whole
list and the empty suffix included. Helper for the percent wildcard. -/
def anySuffixB (f : List Char → Bool) : List Char → Bool
  | [] => f []
  | b :: t => f (b :: t) || anySuffixB f t

/-- SQL LIKE pattern matching against a whole text, as SQLite evaluates it:
a percent sign matches any (possibly empty) character sequence, an underscore
matches exactly one character, and every other pattern character matches
itself. The handlers use ilike, which compares both sides lowercased, so this
function is always applied to lowered pattern and text. No ESCAPE clause is in
play in the source, so no character is escaped. -/
def likeMatch : List Char → List Char → Bool
  | [], s => s.isEmpty
  | c :: p, s =>
    if c = '%' then anySuffixB (likeMatch p) s
    else if c = '_' then
      match s with
      | [] => false
      | _ :: t => likeMatch p t
    else
      match s with
      | [] => false
      | b :: t => c == b && likeMatch p t

/-- The filter condition of the home handler (app.py lines 35-38):
column.ilike with the stripped search string interpolated between two percent
signs, unescaped, so a percent or underscore inside the user string keeps its
LIKE wildcard meaning; lowering both sides models the ASCII case folding
SQLite applies to LIKE. -/
def ilikeWrap (q : List Char) (s : String) : Bool :=
  likeMatch ('%' :: q.map Char.toLower ++ ['%']) (lowerL s)

/-- Exactly the characters Python str.isspace holds for, hence the set
str.strip removes: tab through carriage return (9-13), the information
separator controls (28-31), space, next line 133, no-break space 160, ogham
space mark 5760, the fixed-width spaces 8192-8202, line separator 8232,
paragraph separator 8233, narrow no-break space 8239, medium mathematical
space 8287 and ideographic space 12288. -/
def pyIsSpace (c : Char) : Bool :=
  decide (9 ≤ c.toNat ∧ c.toNat ≤ 13) || decide (28 ≤ c.toNat ∧ c.toNat ≤ 31) ||
  c.toNat == 32 || c.toNat == 133 || c.toNat == 160 || c.toNat == 5760 ||
  decide (8192 ≤ c.toNat ∧ c.toNat ≤ 8202) || c.toNat == 8232 || c.toNat == 8233 ||
  c.toNat == 8239 || c.toNat == 8287 || c.toNat == 12288

/-- Python str.strip applied to a string (app.py line 28): characters of the
Python whitespace set are removed from both ends; the result is kept as a
char list. -/
def stripL (s : String) : List Char :=
  ((s.data.dropWhile pyIsSpace).reverse.dropWhile pyIsSpace).reverse

/-- Strict codepoint (BINARY collation) order on char lists: how the SQLite
backend compares text columns in ORDER BY. -/
def strLtB : List Char → List Char → Bool
  | [], [] => false
  | [], _ :: _ => true
  | _ :: _, [] => false
  | a :: s, b :: t => a.toNat < b.toNat || (a == b && strLtB s t)

/-- Reflexive codepoint order on char lists. -/
def strLeB (s t : List Char) : Bool := !(strLtB t s)

/-- Inner join of books with authors on Book.author_id = Author.id
(app.py line 32, Book.query.join(Author)): one row per matching pair. -/
def joinRows (st : LibraryState) : List (Book × Author) :=
  st.books.flatMap fun b =>
    (st.authors.filter fun a => a.id == b.author_id).map fun a => (b, a)

/-- The text column a joined row is ordered by: Author.name when the column
name is author, Book.title otherwise. -/
def sortKey (col : String) (r : Book × Author) : List Char :=
  if col == "author" then r.2.name.data else r.1.title.data

/-- Ascending ORDER BY comparison on the chosen column. -/
def rowLe (col : String) (x y : Book × Author) : Prop :=
  strLeB (sortKey col x) (sortKey col y) = true

/-- Descending ORDER BY comparison on the chosen column. -/
def rowGe (col : String) (x y : Book × Author) : Prop :=
  strLeB (sortKey col y) (sortKey col x) = true

instance (col : String) : DecidableRel (rowLe col) := fun x y =>
  inferInstanceAs (Decidable (strLeB (sortKey col x) (sortKey col y) = true))

instance (col : String) : DecidableRel (rowGe col) := fun x y =>
  inferInstanceAs (Decidable (strLeB (sortKey col y) (sortKey col x) = true))

/-- The column the home handler orders by (app.py lines 40-47): Author.name
when sort_by is exactly author, Book.title for every other value. -/
def homeSortCol (sort_by : String) : String :=
  if sort_by == "author" then "author" else "title"

/-- GET side of the home handler (app.py lines 28-49): strip the search
parameter, join books with authors, when the stripped search is non-empty keep
the rows whose title or author name contains it case-insensitively, then order
by the chosen column in the chosen direction (ascending exactly when direction
is asc, descending for every other value, line 42/46). -/
def homeQuery (st : LibraryState) (search sort_by direction : String) :
    List (Book × Author) :=
  let q : List Char := stripL search
  let rows := joinRows st
  let rows := if q.isEmpty then rows
    else rows.filter fun r => ilikeWrap q r.1.title || ilikeWrap q r.2.name
  if direction == "asc" then rows.insertionSort (rowLe (homeSortCol sort_by))
  else rows.insertionSort (rowGe (homeSortCol sort_by))

/-- A GET request to the home page: the rendered rows together with the store
after the request. The GET path never calls session.add, session.delete or
commit, so the store is returned unchanged. -/
def homeGet (st : LibraryState) (search sort_by direction : String) :
    List (Book × Author) × LibraryState :=
  (homeQuery st search sort_by direction, st)

/-- Number of books of one author: Book.query.filter_by(author_id=...).count()
(app.py line 65). -/
def countByAuthor (books : List Book) (aid : Nat) : Nat :=
  (books.filter fun b => b.author_id == aid).length

/-- Outcome of a deletion request: the final store, the list of stores at each
db.session.commit call in order, and the flashed messages (text, category). -/
structure DeleteResult where
  state : LibraryState
  commits : List LibraryState
  flashes : List (String × String)
deriving DecidableEq

/-- POST side of the home handler with a well-formed integer id (app.py lines
51-79): look the book up; if absent flash an error; if present delete it and
commit (line 62), then count the remaining books of its author and, when none
remain, delete the author row (if it exists) and commit again (line 70). -/
def homePostDelete (st : LibraryState) (book_id : Nat) : DeleteResult :=
  match st.books.find? fun b => b.id == book_id with
  | none => { state := st, commits := [], flashes := [("Book ID not found!", "error")] }
  | some book =>
    let author_id := book.author_id
    let st1 : LibraryState := { st with books := st.books.filter (fun b => !(b.id == book.id)) }
    let remaining_books := countByAuthor st1.books author_id
    if remaining_books == 0 then
      match st1.authors.find? fun a => a.id == author_id with
      | some author =>
        let st2 : LibraryState :=
          { st1 with authors := st1.authors.filter (fun a => !(a.id == author.id)) }
        { state := st2, commits := [st1, st2],
          flashes := [("Book successfully deleted!", "success")] }
      | none =>
        { state := st1, commits := [st1],
          flashes := [("Book successfully deleted!", "success")] }
    else
      { state := st1, commits := [st1],
        flashes := [("Book successfully deleted!", "success")] }

/-- Autoincrement id for a new authors row. -/
def nextAuthorId (st : LibraryState) : Nat :=
  st.authors.foldr (fun a m => max a.id m) 0 + 1

/-- Autoincrement id for a new books row. -/
def nextBookId (st : LibraryState) : Nat :=
  st.books.foldr (fun b m => max b.id m) 0 + 1

/-- POST side of add_author (app.py lines 97-112): when name or birthdate is
missing or empty, flash the validation message and write nothing; otherwise
insert the author and flash success (line 109). Line 111 then flashes
the success message again, unconditionally, on every POST. -/
def add_author (st : LibraryState) (name birthdate date_of_death : Option String) :
    LibraryState × List (String × String) :=
  if fieldBlank name || fieldBlank birthdate then
    (st, [("Please insert all required dates.", "message"),
          ("Author successfully added!", "success")])
  else
    let na : Author := { id := nextAuthorId st, name := name.getD "",
                         birth_date := birthdate.getD "", date_of_death := date_of_death }
    ({ st with authors := st.authors ++ [na] },
     [("Author successfully added!", "message"),
      ("Author successfully added!", "success")])

/-- An error the storage layer or the interpreter raises; when a handler has no
matching except clause the request fails instead of rendering. -/
inductive DbError
  | integrityError (msg : String)
  | nameError (msg : String)
deriving DecidableEq

/-- Digit-string parse, used for the numeric form fields of add_book. -/
def natOfDigits (cs : List Char) : Option Nat :=
  if cs.isEmpty then none
  else if cs.all Char.isDigit then
    some (cs.foldl (fun n c => n * 10 + (c.toNat - 48)) 0)
  else none

/-- session.add plus commit for a new books row: SQLite enforces the UNIQUE
constraint on isbn (data_models.py line 27) and raises IntegrityError at
commit when the isbn is already present. -/
def insertBookCommit (st : LibraryState) (nb : Book) : Except DbError LibraryState :=
  if st.books.any fun b => b.isbn == nb.isbn then
    Except.error (DbError.integrityError "UNIQUE constraint failed: books.isbn")
  else Except.ok { st with books := st.books ++ [nb] }

/-- POST side of add_book (app.py lines 132-146): when any field is missing or
empty, flash the validation message and write nothing; otherwise build the new
book and commit. The handler wraps the commit in no try/except, so a
storage-layer IntegrityError propagates out of the handler unhandled. -/
def add_book (st : LibraryState) (isbn title publication_year author_id : Option String) :
    Except DbError (LibraryState × List (String × String)) :=
  if fieldBlank isbn || fieldBlank title || fieldBlank publication_year ||
      fieldBlank author_id then
    Except.ok (st, [("Please fill in all fields.", "message")])
  else
    let nb : Book := { id := nextBookId st, isbn := isbn.getD "", title := title.getD "",
                       publication_year := ((natOfDigits (publication_year.getD "").data).getD 0 : Nat),
                       author_id := (natOfDigits (author_id.getD "").data).getD 0 }
    match insertBookCommit st nb with
    | Except.error e => Except.error e
    | Except.ok st2 => Except.ok (st2, [("Book successfully added!", "message")])

/-- The column the library_home handler orders by (app.py lines 159-165):
sort_by is first normalised to title unless it is title or author, then the
order column is Book.title for title and Author.name otherwise. -/
def libSortCol (sort_by : String) : String :=
  let sb := if sort_by == "title" || sort_by == "author" then sort_by else "title"
  if sb == "title" then "title" else "author"

/-- The library_home handler (app.py lines 157-170): join books with authors
and order by the chosen column, descending exactly when direction is desc and
ascending for every other value (lines 166-167). No search, no mutation. -/
def library_home (st : LibraryState) (sort_by direction : String) :
    List (Book × Author) :=
  let rows := joinRows st
  if direction == "desc" then rows.insertionSort (rowGe (libSortCol sort_by))
  else rows.insertionSort (rowLe (libSortCol sort_by))

/-- The delete_book endpoint (app.py lines 173-202). When the book is found,
line 190 evaluates the tuple expression whose second component is
session.delete(book); the name session is never imported in app.py (line 1
imports flash and friends but not session), so the interpreter raises
NameError there, before any row is touched, and the handler has no except
clause for it. Line 191 reads db.session.commit without calling it, so even
the attribute access commits nothing. When the book is absent the handler
flashes the not-found message and redirects without touching the store. -/
def delete_book (st : LibraryState) (book_id : Nat) :
    Except DbError (LibraryState × List (String × String)) :=
  match st.books.find? fun b => b.id == book_id with
  | some _ => Except.error (DbError.nameError "NameError: name session is not defined")
  | none => Except.ok (st, [("Book not found.", "danger")])

/-- Concrete store: one author owning one book. -/
def a1 : Author := { id := 1, name := "Ann", birth_date := "1970-01-01", date_of_death := none }

/-- Concrete book of a1. -/
def b1 : Book := { id := 1, isbn := "111", title := "A", publication_year := 2000, author_id := 1 }

/-- Concrete one-author one-book store. -/
def stOne : LibraryState := { authors := [a1], books := [b1] }

/-- Concrete store for the search counterexample: one book titled axc by q. -/
def stSearch : LibraryState :=
  { authors := [{ id := 1, name := "q", birth_date := "1970-01-01", date_of_death := none }],
    books := [{ id := 1, isbn := "i1", title := "axc", publication_year := 2000, author_id := 1 }] }

/-- Concrete store for the sorting counterexample: two books titled a and b. -/
def stTwo : LibraryState :=
  { authors := [{ id := 1, name := "p", birth_date := "1970-01-01", date_of_death := none }],
    books := [{ id := 1, isbn := "i1", title := "a", publication_year := 2000, author_id := 1 },
              { id := 2, isbn := "i2", title := "b", publication_year := 2001, author_id := 1 }] }

/-! General lemmas about the embedded primitives. -/

theorem char_eq_of_toNat_eq {a b : Char} (h : a.toNat = b.toNat) : a = b :=
  Char.eq_of_val_eq (UInt32.ext (by exact_mod_cast h))

theorem strLtB_irrefl (s : List Char) : strLtB s s = false := by
  induction s with
  | nil => rfl
  | cons a t ih => simp [strLtB, ih, Nat.lt_irrefl]

theorem strLtB_trans : ∀ (s t u : List Char),
    strLtB s t = true → strLtB t u = true → strLtB s u = true := by
  intro s
  induction s with
  | nil =>
    intro t u h1 h2
    cases u with
    | nil =>
      cases t with
      | nil => simp [strLtB] at h1
      | cons b tb => simp [strLtB] at h2
    | cons c uc => rfl
  | cons a s ih =>
    intro t u h1 h2
    cases t with
    | nil => simp [strLtB] at h1
    | cons b t =>
      cases u with
      | nil => simp [strLtB] at h2
      | cons c u =>
        simp only [strLtB, Bool.or_eq_true, Bool.and_eq_true, decide_eq_true_eq,
          beq_iff_eq] at h1 h2 ⊢
        rcases h1 with h1 | ⟨rfl, h1⟩
        · rcases h2 with h2 | ⟨rfl, h2⟩
          · exact Or.inl (Nat.lt_trans h1 h2)
          · exact Or.inl h1
        · rcases h2 with h2 | ⟨rfl, h2⟩
          · exact Or.inl h2
          · exact Or.inr ⟨rfl, ih t u h1 h2⟩

theorem strLtB_eq_of_not : ∀ (s t : List Char),
    strLtB s t = false → strLtB t s = false → s = t := by
  intro s
  induction s with
  | nil =>
    intro t h1 _
    cases t with
    | nil => rfl
    | cons b tb => simp [strLtB] at h1
  | cons a s ih =>
    intro t h1 h2
    cases t with
    | nil => simp [strLtB] at h2
    | cons b t =>
      simp only [strLtB, Bool.or_eq_false_iff, Bool.and_eq_false_iff,
        decide_eq_false_iff_not, beq_eq_false_iff_ne, ne_eq] at h1 h2
      have hab : a = b := char_eq_of_toNat_eq (by omega)
      subst hab
      rcases h1.2 with h | h
      · exact absurd rfl h
      · rcases h2.2 with h' | h'
        · exact absurd rfl h'
        · rw [ih t h h']

theorem strLeB_total (s t : List Char) : strLeB s t = true ∨ strLeB t s = true := by
  unfold strLeB
  cases h : strLtB t s with
  | false => left; rfl
  | true =>
    right
    suffices hf : strLtB s t = false by rw [hf]; rfl
    cases h2 : strLtB s t with
    | false => rfl
    | true =>
      have := strLtB_trans s t s h2 h
      rw [strLtB_irrefl] at this
      cases this

theorem strLeB_trans (s t u : List Char) (h1 : strLeB s t = true)
    (h2 : strLeB t u = true) : strLeB s u = true := by
  unfold strLeB at h1 h2 ⊢
  rw [Bool.not_eq_true'] at h1 h2 ⊢
  cases hx : strLtB u s with
  | false => rfl
  | true =>
    exfalso
    cases hy : strLtB s t with
    | false =>
      have hst : s = t := strLtB_eq_of_not s t hy h1
      subst hst
      rw [hx] at h2
      cases h2
    | true =>
      have := strLtB_trans u s t hx hy
      rw [h2] at this
      cases this

instance (col : String) : IsTrans (Book × Author) (rowLe col) :=
  ⟨fun _ _ _ h1 h2 => strLeB_trans _ _ _ h1 h2⟩

instance (col : String) : IsTotal (Book × Author) (rowLe col) :=
  ⟨fun _ _ => strLeB_total _ _⟩

instance (col : String) : IsTrans (Book × Author) (rowGe col) :=
  ⟨fun _ _ _ h1 h2 => strLeB_trans _ _ _ h2 h1⟩

instance (col : String) : IsTotal (Book × Author) (rowGe col) :=
  ⟨fun _ _ => (strLeB_total _ _).symm⟩

theorem keyUnique_find {α : Type} (key : α → Nat) :
    ∀ (l : List α) (a : α), l.Pairwise (fun x y => key x ≠ key y) → a ∈ l →
      l.find? (fun x => key x == key a) = some a := by
  intro l
  induction l with
  | nil => intro a _ ha; cases ha
  | cons b t ih =>
    intro a hu ha
    rcases List.mem_cons.mp ha with rfl | hat
    · exact List.find?_cons_of_pos _ (by simp)
    · have hb : key b ≠ key a := (List.pairwise_cons.mp hu).1 a hat
      rw [List.find?_cons_of_neg _ (by simpa using hb)]
      exact ih a (List.pairwise_cons.mp hu).2 hat

theorem keyUnique_inj {α : Type} (key : α → Nat) :
    ∀ (l : List α), l.Pairwise (fun x y => key x ≠ key y) →
      ∀ x ∈ l, ∀ y ∈ l, key x = key y → x = y := by
  intro l
  induction l with
  | nil => intro _ x hx; cases hx
  | cons b t ih =>
    intro hu x hx y hy hxy
    rcases List.pairwise_cons.mp hu with ⟨hb, hut⟩
    rcases List.mem_cons.mp hx with rfl | hxt
    · rcases List.mem_cons.mp hy with rfl | hyt
      · rfl
      · exact absurd hxy (hb y hyt)
    · rcases List.mem_cons.mp hy with rfl | hyt
      · exact absurd hxy.symm (hb x hxt)
      · exact ih hut x hxt y hyt hxy

theorem keyUnique_filter_length {α : Type} (key : α → Nat) :
    ∀ (l : List α) (a : α), l.Pairwise (fun x y => key x ≠ key y) → a ∈ l →
      (l.filter (fun x => !(key x == key a))).length + 1 = l.length := by
  intro l
  induction l with
  | nil => intro a _ ha; cases ha
  | cons b t ih =>
    intro a hu ha
    rcases List.pairwise_cons.mp hu with ⟨hb, hut⟩
    rcases List.mem_cons.mp ha with rfl | hat
    · have h2 : t.filter (fun x => !(key x == key a)) = t :=
        List.filter_eq_self.mpr (fun x hx => by simpa using (hb x hx).symm)
      simp [List.filter_cons, h2]
    · have h1 : (!(key b == key a)) = true := by simpa using hb a hat
      simp only [List.filter_cons, h1, if_true, List.length_cons]
      have := ih a hut hat
      omega

theorem startsWithB_iff : ∀ (p s : List Char),
    startsWithB p s = true ↔ ∃ r, s = p ++ r := by
  intro p
  induction p with
  | nil => intro s; simp [startsWithB]
  | cons a p ih =>
    intro s
    cases s with
    | nil =>
      constructor
      · intro h; simp [startsWithB] at h
      · rintro ⟨r, h⟩; simp at h
    | cons b s =>
      simp only [startsWithB, Bool.and_eq_true, beq_iff_eq, List.cons_append,
        List.cons.injEq]
      constructor
      · rintro ⟨rfl, h2⟩
        obtain ⟨r, rfl⟩ := (ih s).mp h2
        exact ⟨r, rfl, rfl⟩
      · rintro ⟨r, rfl, rfl⟩
        exact ⟨rfl, (ih _).mpr ⟨r, rfl⟩⟩

theorem containsSubB_iff : ∀ (p s : List Char),
    containsSubB p s = true ↔ ∃ l r, s = l ++ p ++ r := by
  intro p s
  induction s with
  | nil =>
    rw [show containsSubB p [] = startsWithB p [] from rfl, startsWithB_iff]
    constructor
    · rintro ⟨r, h⟩; exact ⟨[], r, by simpa using h⟩
    · rintro ⟨l, r, h⟩
      have h3 : l = [] ∧ p = [] ∧ r = [] := by simpa using h.symm
      exact ⟨[], by simp [h3.2.1]⟩
  | cons b t ih =>
    rw [show containsSubB p (b :: t) = (startsWithB p (b :: t) || containsSubB p t) from rfl]
    rw [Bool.or_eq_true]
    constructor
    · intro h
      rcases h with h | h
      · obtain ⟨r, hr⟩ := (startsWithB_iff _ _).mp h
        exact ⟨[], r, by simpa using hr⟩
      · obtain ⟨l, r, hr⟩ := ih.mp h
        exact ⟨b :: l, r, by simp [hr]⟩
    · rintro ⟨l, r, h⟩
      cases l with
      | nil =>
        left
        exact (startsWithB_iff _ _).mpr ⟨r, by simpa using h⟩
      | cons c l =>
        right
        simp only [List.cons_append, List.append_assoc, List.cons.injEq] at h
        exact ih.mpr ⟨l, r, by simp [h.2]⟩

/-- ilikeSub is literal case-insensitive substring containment: the lowered
pattern occurs contiguously inside the lowered text. -/
theorem ilikeSub_iff (pat s : String) :
    ilikeSub pat s = true ↔ ∃ l r, lowerL s = l ++ lowerL pat ++ r :=
  containsSubB_iff _ _

/-- Specification-side denotational reading of an SQL LIKE pattern matched
against a whole text: a percent sign stands for any (possibly empty) character
sequence, an underscore for exactly one character, and any other pattern
character for itself. Defined independently of likeMatch, by recursion on the
pattern. -/
def LikeSpec : List Char → List Char → Prop
  | [], s => s = []
  | c :: p, s =>
    if c = '%' then ∃ u t, s = u ++ t ∧ LikeSpec p t
    else if c = '_' then ∃ b t, s = b :: t ∧ LikeSpec p t
    else ∃ t, s = c :: t ∧ LikeSpec p t

theorem anySuffixB_iff (f : List Char → Bool) :
    ∀ s : List Char, anySuffixB f s = true ↔ ∃ u t, s = u ++ t ∧ f t = true := by
  intro s
  induction s with
  | nil =>
    show f [] = true ↔ ∃ u t, ([] : List Char) = u ++ t ∧ f t = true
    constructor
    · intro h
      exact ⟨[], [], rfl, h⟩
    · rintro ⟨u, t, h, hf⟩
      have h2 : u = [] ∧ t = [] := by simpa using h.symm
      rw [h2.2] at hf
      exact hf
  | cons b s ih =>
    show (f (b :: s) || anySuffixB f s) = true ↔
      ∃ u t, b :: s = u ++ t ∧ f t = true
    rw [Bool.or_eq_true, ih]
    constructor
    · rintro (h | ⟨u, t, rfl, hf⟩)
      · exact ⟨[], b :: s, rfl, h⟩
      · exact ⟨b :: u, t, rfl, hf⟩
    · rintro ⟨u, t, h, hf⟩
      cases u with
      | nil =>
        left
        simp only [List.nil_append] at h
        rw [h]
        exact hf
      | cons c u =>
        right
        simp only [List.cons_append, List.cons.injEq] at h
        exact ⟨u, t, h.2, hf⟩

/-- Adequacy of the executable LIKE matcher for the denotational reading. -/
theorem likeMatch_iff : ∀ (p s : List Char), likeMatch p s = true ↔ LikeSpec p s := by
  intro p
  induction p with
  | nil =>
    intro s
    show s.isEmpty = true ↔ s = []
    exact List.isEmpty_iff
  | cons c p ih =>
    intro s
    by_cases hc1 : c = '%'
    · subst hc1
      show anySuffixB (likeMatch p) s = true ↔ ∃ u t, s = u ++ t ∧ LikeSpec p t
      rw [anySuffixB_iff]
      constructor
      · rintro ⟨u, t, h, hf⟩
        exact ⟨u, t, h, (ih t).mp hf⟩
      · rintro ⟨u, t, h, hf⟩
        exact ⟨u, t, h, (ih t).mpr hf⟩
    · by_cases hc2 : c = '_'
      · subst hc2
        cases s with
        | nil =>
          show false = true ↔ ∃ b t, ([] : List Char) = b :: t ∧ LikeSpec p t
          simp
        | cons b t =>
          show likeMatch p t = true ↔ ∃ b' t', b :: t = b' :: t' ∧ LikeSpec p t'
          constructor
          · intro h
            exact ⟨b, t, rfl, (ih t).mp h⟩
          · rintro ⟨b', t', h, hf⟩
            obtain ⟨h1, h2⟩ : b' = b ∧ t' = t := by simpa using h.symm
            subst h1
            subst h2
            exact (ih _).mpr hf
      · rw [show likeMatch (c :: p) s =
              (if c = '%' then anySuffixB (likeMatch p) s
               else if c = '_' then
                 match s with
                 | [] => false
                 | _ :: t => likeMatch p t
               else
                 match s with
                 | [] => false
                 | b :: t => c == b && likeMatch p t) from rfl,
            if_neg hc1, if_neg hc2,
            show LikeSpec (c :: p) s =
              (if c = '%' then ∃ u t, s = u ++ t ∧ LikeSpec p t
               else if c = '_' then ∃ b t, s = b :: t ∧ LikeSpec p t
               else ∃ t, s = c :: t ∧ LikeSpec p t) from rfl,
            if_neg hc1, if_neg hc2]
        cases s with
        | nil => simp
        | cons b t =>
          show (c == b && likeMatch p t) = true ↔ ∃ t', b :: t = c :: t' ∧ LikeSpec p t'
          rw [Bool.and_eq_true, beq_iff_eq]
          constructor
          · rintro ⟨rfl, h⟩
            exact ⟨t, rfl, (ih t).mp h⟩
          · rintro ⟨t', h, hf⟩
            obtain ⟨h1, h2⟩ : b = c ∧ t = t' := by simpa using h
            subst h1
            subst h2
            exact ⟨rfl, (ih _).mpr hf⟩

/-! Claim theorems. -/

/-- C2: with a stored Book present (stOne holds Book 1), a POST to the
dedicated endpoint /book/1/delete does not delete the Book, cascade or commit:
the handler raises an unhandled NameError at the expression on app.py line 190
because the name session was never imported, so the request fails instead of
reporting success. -/
theorem delete_book_raises_nameError :
    delete_book stOne 1 =
      Except.error (DbError.nameError "NameError: name session is not defined") := rfl

/-- C3: with a Book of isbn 111 already stored (stOne), a POST to /add_book
with the same isbn is rejected by the storage layer, but the handler wraps the
commit in no try/except, so the IntegrityError propagates out of add_book as an
unhandled failure of the request instead of a user-visible flash message. -/
theorem add_book_duplicate_isbn_propagates :
    add_book stOne (some "111") (some "B") (some "2001") (some "1") =
      Except.error (DbError.integrityError "UNIQUE constraint failed: books.isbn") := rfl

/-- C4: deleting the only Book of its Author through the home POST handler
produces two separate commits (app.py lines 62 and 70), not one atomic
mutation: the first committed state already lacks the Book while the
now-orphaned Author row a1 is still present; only the second commit removes
the Author. -/
theorem home_delete_two_commit_points :
    (homePostDelete stOne 1).commits =
      [{ authors := [a1], books := [] }, { authors := [], books := [] }] ∧
    (homePostDelete stOne 1).commits.head? = some { authors := [a1], books := [] } := by
  decide

/-- C7: a delete request naming a Book id held by no stored Book row flashes a
not-found message and mutates nothing, on both delete paths: the home POST
handler returns the store unchanged with no commit and the error flash, and
the dedicated endpoint returns the store unchanged with its not-found flash. -/
theorem delete_missing_book_is_noop (st : LibraryState) (book_id : Nat)
    (h : ∀ b ∈ st.books, b.id ≠ book_id) :
    homePostDelete st book_id =
      { state := st, commits := [], flashes := [("Book ID not found!", "error")] } ∧
    delete_book st book_id = Except.ok (st, [("Book not found.", "danger")]) := by
  have hf : st.books.find? (fun b => b.id == book_id) = none :=
    List.find?_eq_none.mpr (fun b hb => by simpa using h b hb)
  constructor
  · unfold homePostDelete
    rw [hf]
  · unfold delete_book
    rw [hf]

/-- Witness for C7 at the concrete store stOne and the absent id 9999. -/
theorem delete_missing_book_is_noop_witness :
    (∀ b ∈ stOne.books, b.id ≠ 9999) ∧
    (homePostDelete stOne 9999 =
      { state := stOne, commits := [], flashes := [("Book ID not found!", "error")] } ∧
     delete_book stOne 9999 = Except.ok (stOne, [("Book not found.", "danger")])) :=
  ⟨by decide, delete_missing_book_is_noop stOne 9999 (by decide)⟩

/-- C8: a POST to /add_author with name or birthdate missing or empty flashes
the validation message and writes nothing, leaving the store untouched; a POST
with both present inserts exactly one new Author row (books untouched) and
flashes the success message. -/
theorem add_author_validation (st : LibraryState) (name birthdate dod : Option String) :
    if fieldBlank name || fieldBlank birthdate then
      (add_author st name birthdate dod).1 = st ∧
      ("Please insert all required dates.", "message") ∈ (add_author st name birthdate dod).2
    else
      (add_author st name birthdate dod).1.authors.length = st.authors.length + 1 ∧
      (add_author st name birthdate dod).1.books = st.books ∧
      ("Author successfully added!", "message") ∈ (add_author st name birthdate dod).2 := by
  by_cases h : (fieldBlank name || fieldBlank birthdate) = true
  · simp [add_author, h]
  · have h2 : (fieldBlank name || fieldBlank birthdate) = false := by simpa using h
    simp [add_author, h2]

/-- C9: every POST to /add_author flashes the success message with category
success (app.py line 111), unconditionally; in particular a submission rejected
by validation receives both the validation-failure flash and the success flash
while the store stays unchanged. -/
theorem add_author_always_flashes_success (st : LibraryState)
    (name birthdate dod : Option String) :
    ("Author successfully added!", "success") ∈ (add_author st name birthdate dod).2 ∧
    (if fieldBlank name || fieldBlank birthdate then
      ("Please insert all required dates.", "message") ∈ (add_author st name birthdate dod).2 ∧
      (add_author st name birthdate dod).1 = st
     else True) := by
  by_cases h : (fieldBlank name || fieldBlank birthdate) = true
  · simp [add_author, h]
  · have h2 : (fieldBlank name || fieldBlank birthdate) = false := by simpa using h
    simp [add_author, h2]

/-- The rows the home listing holds before ordering: the full join when the
stripped search is empty, otherwise the rows matching the stripped search. -/
theorem homeQuery_perm (st : LibraryState) (search sort_by direction : String) :
    (homeQuery st search sort_by direction).Perm
      (if (stripL search).isEmpty then joinRows st
       else (joinRows st).filter
         (fun r => ilikeWrap (stripL search) r.1.title || ilikeWrap (stripL search) r.2.name)) := by
  unfold homeQuery
  by_cases hd : (direction == "asc") = true <;>
    by_cases hq : ((stripL search).isEmpty) = true <;>
      simp [hd, hq, List.perm_insertionSort]

/-- C5 counterexample: the claim as stated fails in two ways on the store
stSearch (one book titled axc by author q). First, with the raw search string
" x " (spaces included) the home listing returns the row although the raw
string is a case-insensitive substring of neither the title nor the author
name: the handler matches the stripped string x. Second, with the search
string a_c (no whitespace, so stripping is not involved) the listing again
returns the row although a_c is a literal substring of neither field: the
underscore of the unescaped search string acts as a LIKE single-character
wildcard and matches the x of axc. -/
theorem home_search_raw_counterexample :
    (homeQuery stSearch " x " "title" "asc").length = 1 ∧
    ((homeQuery stSearch " x " "title" "asc").all
      (fun r => !(ilikeSub " x " r.1.title || ilikeSub " x " r.2.name))) = true ∧
    (homeQuery stSearch "a_c" "title" "asc").length = 1 ∧
    ((homeQuery stSearch "a_c" "title" "asc").all
      (fun r => !(ilikeSub "a_c" r.1.title || ilikeSub "a_c" r.2.name))) = true := by
  decide

/-- C5 amended: the home listing performs no mutation, and returns exactly the
joined rows whose lowered title or lowered author name matches the SQL LIKE
pattern obtained by wrapping the Python-whitespace-stripped search string in
percent wildcards; since the user string is interpolated unescaped, a percent
inside it matches any character sequence and an underscore exactly one
character. When the stripped search is empty the full joined set is
returned. -/
theorem home_search_filters (st : LibraryState) (search sort_by direction : String) :
    (homeGet st search sort_by direction).2 = st ∧
    ∀ r : Book × Author,
      r ∈ homeQuery st search sort_by direction ↔
        r ∈ joinRows st ∧
          (stripL search = [] ∨
            LikeSpec ('%' :: (stripL search).map Char.toLower ++ ['%'])
              (lowerL r.1.title) ∨
            LikeSpec ('%' :: (stripL search).map Char.toLower ++ ['%'])
              (lowerL r.2.name)) := by
  refine ⟨rfl, fun r => ?_⟩
  rw [(homeQuery_perm st search sort_by direction).mem_iff]
  by_cases hq : ((stripL search).isEmpty) = true
  · have he : stripL search = [] := List.isEmpty_iff.mp hq
    simp [hq, he]
  · have hne : ¬ stripL search = [] := fun h => hq (by simp [h])
    have hq2 : ((stripL search).isEmpty) = false := by simpa using hq
    rw [hq2]
    simp only [Bool.false_eq_true, if_false, List.mem_filter, Bool.or_eq_true]
    have hco : ∀ s : String, (ilikeWrap (stripL search) s = true) =
        LikeSpec ('%' :: (stripL search).map Char.toLower ++ ['%']) (lowerL s) :=
      fun s => propext (likeMatch_iff _ _)
    simp only [hco]
    tauto

/-- C6 counterexample: with two books titled a and b, an unrecognized sort_by
together with direction=desc makes the home listing return the titles in the
order b, a, although a precedes b in ascending order (witnessed by the strict
comparison): the fallback is title ordering in the requested direction, not
title-ascending. -/
theorem home_sort_fallback_counterexample :
    ((homeQuery stTwo "" "bogus" "desc").map (fun r => r.1.title) = ["b", "a"]) ∧
    strLtB "a".data "b".data = true := by
  decide

/-- C6 amended: both listing handlers order by Author.name when sort_by is
author and by Book.title otherwise, so an unrecognized sort_by behaves exactly
like title; the direction follows each handler's direction parameter (home:
ascending exactly for asc; library_home: descending exactly for desc), so the
unrecognized-sort_by fallback is title-ascending only when the direction
parameter asks for ascending. -/
theorem listing_sort_amended (st : LibraryState) (search sort_by direction : String) :
    (if direction == "asc"
      then (homeQuery st search sort_by direction).Pairwise (rowLe (homeSortCol sort_by))
      else (homeQuery st search sort_by direction).Pairwise (rowGe (homeSortCol sort_by))) ∧
    (if direction == "desc"
      then (library_home st sort_by direction).Pairwise (rowGe (libSortCol sort_by))
      else (library_home st sort_by direction).Pairwise (rowLe (libSortCol sort_by))) ∧
    (if sort_by == "author" then True
      else homeQuery st search sort_by direction = homeQuery st search "title" direction ∧
        library_home st sort_by direction = library_home st "title" direction) := by
  refine ⟨?_, ?_, ?_⟩
  · unfold homeQuery
    by_cases hd : (direction == "asc") = true <;> simp [hd] <;>
      exact List.sorted_insertionSort _ _
  · unfold library_home
    by_cases hd : (direction == "desc") = true <;> simp [hd] <;>
      exact List.sorted_insertionSort _ _
  · by_cases hsb : (sort_by == "author") = true
    · simp [hsb]
    · have hsb2 : (sort_by == "author") = false := by simpa using hsb
      simp only [hsb2, Bool.false_eq_true, if_false]
      have hcol : homeSortCol sort_by = "title" := by simp [homeSortCol, hsb2]
      by_cases hst : (sort_by == "title") = true
      · have : sort_by = "title" := by simpa using hst
        subst this
        exact ⟨rfl, rfl⟩
      · have hst2 : (sort_by == "title") = false := by simpa using hst
        have hcol2 : libSortCol sort_by = "title" := by simp [libSortCol, hsb2, hst2]
        have hcolT : homeSortCol "title" = "title" := by decide
        have hcol2T : libSortCol "title" = "title" := by decide
        constructor
        · unfold homeQuery
          rw [hcol, hcolT]
        · unfold library_home
          rw [hcol2, hcol2T]

/-- C10: whenever direction is not exactly asc the home listing is ordered
descending; whenever direction is not exactly desc the library_home listing is
ordered ascending; and for a direction outside both recognized values the two
endpoints return permutations of each other (the same row set) sorted in
opposite directions. -/
theorem listing_direction_mismatch (st : LibraryState) (sort_by direction : String) :
    (if direction == "asc" then True
      else (homeQuery st "" sort_by direction).Pairwise (rowGe (homeSortCol sort_by))) ∧
    (if direction == "desc" then True
      else (library_home st sort_by direction).Pairwise (rowLe (libSortCol sort_by))) ∧
    (if direction == "asc" || direction == "desc" then True
      else (homeQuery st "" sort_by direction).Perm (library_home st sort_by direction)) := by
  refine ⟨?_, ?_, ?_⟩
  · by_cases hd : (direction == "asc") = true
    · simp [hd]
    · have hd2 : (direction == "asc") = false := by simpa using hd
      simp only [hd2, Bool.false_eq_true, if_false]
      unfold homeQuery
      simp only [hd2, Bool.false_eq_true, if_false]
      exact List.sorted_insertionSort _ _
  · by_cases hd : (direction == "desc") = true
    · simp [hd]
    · have hd2 : (direction == "desc") = false := by simpa using hd
      simp only [hd2, Bool.false_eq_true, if_false]
      unfold library_home
      simp only [hd2, Bool.false_eq_true, if_false]
      exact List.sorted_insertionSort _ _
  · by_cases hd1 : (direction == "asc") = true
    · simp [hd1]
    · by_cases hd2 : (direction == "desc") = true
      · simp [hd2]
      · have e1 : (direction == "asc") = false := by simpa using hd1
        have e2 : (direction == "desc") = false := by simpa using hd2
        simp only [e1, e2, Bool.or_self, Bool.false_eq_true, if_false]
        have h1 : (homeQuery st "" sort_by direction).Perm (joinRows st) := by
          unfold homeQuery
          simp only [e1, Bool.false_eq_true, if_false]
          have hq : (stripL "").isEmpty = true := rfl
          simp only [hq, if_true]
          exact List.perm_insertionSort _ _
        have h2 : (library_home st sort_by direction).Perm (joinRows st) := by
          unfold library_home
          simp only [e2, Bool.false_eq_true, if_false]
          exact List.perm_insertionSort _ _
        exact h1.trans h2.symm

/-- Reduction of the home POST deletion once the book lookup has succeeded. -/
theorem homePostDelete_found (st : LibraryState) (B : Book)
    (hfind : st.books.find? (fun b => b.id == B.id) = some B) :
    homePostDelete st B.id =
      (if countByAuthor (st.books.filter (fun b => !(b.id == B.id))) B.author_id == 0 then
        match st.authors.find? (fun a => a.id == B.author_id) with
        | some author =>
          { state := { authors := st.authors.filter (fun a => !(a.id == author.id)),
                       books := st.books.filter (fun b => !(b.id == B.id)) },
            commits := [{ authors := st.authors,
                          books := st.books.filter (fun b => !(b.id == B.id)) },
                        { authors := st.authors.filter (fun a => !(a.id == author.id)),
                          books := st.books.filter (fun b => !(b.id == B.id)) }],
            flashes := [("Book successfully deleted!", "success")] }
        | none =>
          { state := { authors := st.authors,
                       books := st.books.filter (fun b => !(b.id == B.id)) },
            commits := [{ authors := st.authors,
                          books := st.books.filter (fun b => !(b.id == B.id)) }],
            flashes := [("Book successfully deleted!", "success")] }
      else
        { state := { authors := st.authors,
                     books := st.books.filter (fun b => !(b.id == B.id)) },
          commits := [{ authors := st.authors,
                        books := st.books.filter (fun b => !(b.id == B.id)) }],
          flashes := [("Book successfully deleted!", "success")] }) := by
  unfold homePostDelete
  rw [hfind]

/-- Reduction of the home POST deletion when the deleted book was the last one
of its author and the author row exists: both rows are removed. -/
theorem homePostDelete_found_zero (st : LibraryState) (B : Book) (A : Author)
    (hfind : st.books.find? (fun b => b.id == B.id) = some B)
    (hrem : countByAuthor (st.books.filter (fun b => !(b.id == B.id))) B.author_id = 0)
    (hfindA : st.authors.find? (fun a => a.id == B.author_id) = some A) :
    homePostDelete st B.id =
      { state := { authors := st.authors.filter (fun a => !(a.id == A.id)),
                   books := st.books.filter (fun b => !(b.id == B.id)) },
        commits := [{ authors := st.authors,
                      books := st.books.filter (fun b => !(b.id == B.id)) },
                    { authors := st.authors.filter (fun a => !(a.id == A.id)),
                      books := st.books.filter (fun b => !(b.id == B.id)) }],
        flashes := [("Book successfully deleted!", "success")] } := by
  rw [homePostDelete_found st B hfind, hrem, hfindA]
  rfl

/-- Reduction of the home POST deletion when other books of the same author
remain: only the book row is removed and a single commit happens. -/
theorem homePostDelete_found_pos (st : LibraryState) (B : Book) (n : Nat)
    (hfind : st.books.find? (fun b => b.id == B.id) = some B)
    (hrem : countByAuthor (st.books.filter (fun b => !(b.id == B.id))) B.author_id = n + 1) :
    homePostDelete st B.id =
      { state := { authors := st.authors,
                   books := st.books.filter (fun b => !(b.id == B.id)) },
        commits := [{ authors := st.authors,
                      books := st.books.filter (fun b => !(b.id == B.id)) }],
        flashes := [("Book successfully deleted!", "success")] } := by
  rw [homePostDelete_found st B hfind, hrem]
  rfl

/-- C1: deleting Book B through the home POST handler removes exactly B from
the books table; afterwards the Author row A that B references is absent if
and only if no remaining Book references it; when B was the only Book of its
Author the Author row is deleted too, and when the Author had at least two
Books the authors table is left unchanged. Hypotheses: B is stored, ids are
unique in both tables, and A is the stored Author row B references. -/
theorem home_delete_cascade (st : LibraryState) (B : Book) (A : Author)
    (hB : B ∈ st.books)
    (hbu : st.books.Pairwise (fun x y => x.id ≠ y.id))
    (hau : st.authors.Pairwise (fun x y => x.id ≠ y.id))
    (hA : A ∈ st.authors) (hAB : A.id = B.author_id) :
    (B ∉ (homePostDelete st B.id).state.books) ∧
    (∀ b ∈ st.books, b ≠ B → b ∈ (homePostDelete st B.id).state.books) ∧
    (∀ b ∈ (homePostDelete st B.id).state.books, b ∈ st.books ∧ b ≠ B) ∧
    ((A ∉ (homePostDelete st B.id).state.authors) ↔
      countByAuthor (homePostDelete st B.id).state.books A.id = 0) ∧
    (countByAuthor st.books B.author_id = 1 →
      A ∉ (homePostDelete st B.id).state.authors) ∧
    (2 ≤ countByAuthor st.books B.author_id →
      (homePostDelete st B.id).state.authors = st.authors) := by
  have hfind : st.books.find? (fun b => b.id == B.id) = some B :=
    keyUnique_find Book.id st.books B hbu hB
  have hcount : countByAuthor (st.books.filter (fun b => !(b.id == B.id))) B.author_id + 1
      = countByAuthor st.books B.author_id := by
    unfold countByAuthor
    have hcomm : (st.books.filter (fun b => !(b.id == B.id))).filter
          (fun b => b.author_id == B.author_id)
        = (st.books.filter (fun b => b.author_id == B.author_id)).filter
          (fun x => !(x.id == B.id)) := by
      rw [List.filter_filter, List.filter_filter]
      exact List.filter_congr (fun x _ => Bool.and_comm _ _)
    rw [hcomm]
    exact keyUnique_filter_length Book.id _ B (hbu.filter _)
      (List.mem_filter.mpr ⟨hB, by simp⟩)
  have hBnot : B ∉ st.books.filter (fun b => !(b.id == B.id)) := by
    simp [List.mem_filter]
  have hkeep : ∀ b ∈ st.books, b ≠ B → b ∈ st.books.filter (fun b => !(b.id == B.id)) := by
    intro b hb hne
    refine List.mem_filter.mpr ⟨hb, ?_⟩
    have hid : b.id ≠ B.id := fun h => hne (keyUnique_inj Book.id st.books hbu b hb B hB h)
    simpa using hid
  have hsub : ∀ b ∈ st.books.filter (fun b => !(b.id == B.id)), b ∈ st.books ∧ b ≠ B := by
    intro b hb
    obtain ⟨h1, h2⟩ := List.mem_filter.mp hb
    refine ⟨h1, fun he => ?_⟩
    subst he
    simp at h2
  cases hrem : countByAuthor (st.books.filter (fun b => !(b.id == B.id))) B.author_id with
  | zero =>
    have hfindA : st.authors.find? (fun a => a.id == B.author_id) = some A := by
      rw [← hAB]
      exact keyUnique_find Author.id st.authors A hau hA
    simp only [homePostDelete_found_zero st B A hfind hrem hfindA]
    have hAnot : A ∉ st.authors.filter (fun a => !(a.id == A.id)) := by
      simp [List.mem_filter]
    refine ⟨hBnot, hkeep, hsub, ?_, fun _ => hAnot, ?_⟩
    · constructor
      · intro _
        rw [hAB]
        exact hrem
      · intro _
        exact hAnot
    · intro h2
      rw [hrem] at hcount
      omega
  | succ n =>
    simp only [homePostDelete_found_pos st B n hfind hrem]
    refine ⟨hBnot, hkeep, hsub, ?_, ?_, fun _ => trivial⟩
    · constructor
      · intro h
        exact absurd hA h
      · intro h
        rw [hAB, hrem] at h
        exact absurd h (Nat.succ_ne_zero n)
    · intro h1
      rw [hrem] at hcount
      omega

/-- Witness for C1 at the concrete one-author one-book store stOne. -/
theorem home_delete_cascade_witness :
    (b1 ∈ stOne.books ∧ stOne.books.Pairwise (fun x y => x.id ≠ y.id) ∧
     stOne.authors.Pairwise (fun x y => x.id ≠ y.id) ∧ a1 ∈ stOne.authors ∧
     a1.id = b1.author_id) ∧
    ((b1 ∉ (homePostDelete stOne b1.id).state.books) ∧
     (∀ b ∈ stOne.books, b ≠ b1 → b ∈ (homePostDelete stOne b1.id).state.books) ∧
     (∀ b ∈ (homePostDelete stOne b1.id).state.books, b ∈ stOne.books ∧ b ≠ b1) ∧
     ((a1 ∉ (homePostDelete stOne b1.id).state.authors) ↔
       countByAuthor (homePostDelete stOne b1.id).state.books a1.id = 0) ∧
     (countByAuthor stOne.books b1.author_id = 1 →
       a1 ∉ (homePostDelete stOne b1.id).state.authors) ∧
     (2 ≤ countByAuthor stOne.books b1.author_id →
       (homePostDelete stOne b1.id).state.authors = stOne.authors)) :=
  ⟨⟨by decide, by decide, by decide, by decide, by decide⟩,
   home_delete_cascade stOne b1 a1 (by decide) (by decide) (by decide) (by decide) (by decide)⟩

end BookAlchemy
